import Mathlib

/-!
Verification of the course-evaluation survey pipeline.

Shallow embedding of the size-classification, column-mapping, loading /
validation and grouped-aggregation logic of the repository, with theorems
settling the specification claims.  Numeric survey scores are modelled as
rationals; a missing value ("NaN" after pandas to_numeric coercion) is
modelled as `none : Option ℚ`.
-/

/-- Embeds categorize_size from stats/class_size_analyzer0104.py:
if count <= 15: Small; elif count <= 30: Medium; elif count <= 75: Large;
else Very Large. -/
def categorize_size (count : ℕ) : String :=
  if count ≤ 15 then "Small"
  else if count ≤ 30 then "Medium"
  else if count ≤ 75 then "Large"
  else "Very Large"

/-- Embeds MetricsCalculator.classify_courses_by_size from
test_data/calculate_metrics.py: pd.cut with bins [0, 15, 30, 75, inf] and
labels [Small, Medium, Large, Very Large].  pd.cut intervals are
right-closed and left-open by default, so the bins are (0,15], (15,30],
(30,75], (75,inf); a value outside every bin (here 0) yields NaN,
modelled as `none`. -/
def cutSize (n : ℕ) : Option String :=
  if n = 0 then none
  else if n ≤ 15 then some "Small"
  else if n ≤ 30 then some "Medium"
  else if n ≤ 75 then some "Large"
  else some "Very Large"

/-- Embeds the SizeRange record of scripts_backend/size_range_analyzer.py
(fields min_size, max_size, title, color; max_size None means unbounded). -/
structure SizeRange where
  min_size : ℕ
  max_size : Option ℕ
  title : String
  color : String
deriving Repr, DecidableEq

/-- Embeds the size-range membership mask of
SizeRangeAnalyzer.process_data: a course belongs to a range when
count >= min_size and (max_size is None or count < max_size). -/
def inRange (r : SizeRange) (count : ℕ) : Bool :=
  decide (r.min_size ≤ count) &&
    (match r.max_size with
     | none => true
     | some m => decide (count < m))

/-- Embeds the fixed size_ranges list built in SizeRangeAnalyzer.__init__
of scripts_backend/size_range_analyzer.py. -/
def size_ranges : List SizeRange :=
  [⟨10, some 21, "소규모 강좌 (10-20명)", "#2563eb"⟩,
   ⟨21, some 51, "중소규모 강좌 (21-50명)", "#059669"⟩,
   ⟨51, some 101, "중대규모 강좌 (51-100명)", "#7c3aed"⟩,
   ⟨101, none, "대규모 강좌 (100명 이상)", "#dc2626"⟩]

/-- Modelled from the spec: threshold validation is absent from the code
(no ConfigError path exists in src); section 4.4 requires the ordered
threshold list to be contiguous and non-overlapping, covering [0, ∞).
`chainFromB lo rs` checks that `rs` forms such a contiguous chain starting
at lower bound `lo`, the last range being unbounded above. -/
def chainFromB : ℕ → List SizeRange → Bool
  | _, [] => false
  | lo, r :: rest =>
    (r.min_size == lo) &&
      (match rest, r.max_size with
       | [], none => true
       | [], some _ => false
       | _ :: _, none => false
       | _ :: _, some m => decide (lo < m) && chainFromB m rest)

/-- Every range in a chain starting at `lo` has lower bound at least `lo`. -/
theorem chainFromB_min_le {lo : ℕ} {rs : List SizeRange}
    (h : chainFromB lo rs = true) : ∀ r ∈ rs, lo ≤ r.min_size := by
  induction rs generalizing lo with
  | nil => intro r hr; cases hr
  | cons r rest ih =>
    intro r2 hr2
    simp only [chainFromB, Bool.and_eq_true] at h
    obtain ⟨hmin, hrest⟩ := h
    have hminEq : r.min_size = lo := by simpa using hmin
    rw [List.mem_cons] at hr2
    rcases hr2 with hr2 | hr2
    · subst hr2; omega
    · cases rest with
      | nil => cases hr2
      | cons r3 rest3 =>
        cases hmax : r.max_size with
        | none => rw [hmax] at hrest; simp at hrest
        | some m =>
          rw [hmax] at hrest
          rw [Bool.and_eq_true, decide_eq_true_iff] at hrest
          have := ih hrest.2 r2 hr2
          omega

/-- A validated contiguous chain starting at `lo` matches each count
`n ≥ lo` in exactly one of its ranges. -/
theorem chainFromB_countP {lo : ℕ} {rs : List SizeRange}
    (h : chainFromB lo rs = true) {n : ℕ} (hn : lo ≤ n) :
    rs.countP (fun r => inRange r n) = 1 := by
  induction rs generalizing lo with
  | nil => simp [chainFromB] at h
  | cons r rest ih =>
    simp only [chainFromB, Bool.and_eq_true] at h
    obtain ⟨hmin, hrest⟩ := h
    have hminEq : r.min_size = lo := by simpa using hmin
    cases rest with
    | nil =>
      cases hmax : r.max_size with
      | none =>
        have : inRange r n = true := by
          simp [inRange, hmax, hminEq, hn]
        simp [List.countP_cons, this]
      | some m => rw [hmax] at hrest; simp at hrest
    | cons r2 rest2 =>
      cases hmax : r.max_size with
      | none => rw [hmax] at hrest; simp at hrest
      | some m =>
        rw [hmax] at hrest
        rw [Bool.and_eq_true, decide_eq_true_iff] at hrest
        obtain ⟨hlom, hchain⟩ := hrest
        by_cases hnm : n < m
        · have hr : inRange r n = true := by
            simp [inRange, hmax, hminEq, hn, hnm]
          have hzero : (r2 :: rest2).countP (fun r => inRange r n) = 0 := by
            rw [List.countP_eq_zero]
            intro a ha
            have hge := chainFromB_min_le hchain a ha
            simp only [inRange, Bool.and_eq_true, decide_eq_true_iff]
            intro hcon
            omega
          rw [List.countP_cons, hzero, hr]
          simp
        · have hr : inRange r n = false := by
            simp only [inRange, hmax, Bool.and_eq_false_iff]
            right
            simpa using hnm
          have hone := ih hchain (by omega)
          rw [List.countP_cons, hone, hr]
          simp

/-- C1 counterexample: a count of exactly 15 is classified "Small" by both
implementations (categorize_size uses count <= 15, pd.cut uses the
right-closed bin (0,15]), not "Medium" as the claim states. -/
theorem C1_boundary_counterexample :
    categorize_size 15 = "Small" ∧ cutSize 15 = some "Small" ∧
      "Small" ≠ "Medium" := by
  refine ⟨rfl, rfl, ?_⟩
  decide

/-- C1 (amended): classification is lower-exclusive and upper-inclusive: a
count exactly equal to a boundary belongs to the bucket for which that
boundary is the upper bound, the final bucket being unbounded above; with
thresholds 15/30/75 a count of 15 is "Small", 14 is "Small" and 1000 is
"Very Large", and categorize_size agrees with the pd.cut variant on every
count >= 1. -/
theorem C1_categorize_upper_inclusive (n : ℕ) :
    (n ≤ 15 → categorize_size n = "Small") ∧
      (16 ≤ n → n ≤ 30 → categorize_size n = "Medium") ∧
      (31 ≤ n → n ≤ 75 → categorize_size n = "Large") ∧
      (76 ≤ n → categorize_size n = "Very Large") ∧
      (1 ≤ n → cutSize n = some (categorize_size n)) ∧
      categorize_size 15 = "Small" ∧ categorize_size 14 = "Small" ∧
      categorize_size 1000 = "Very Large" := by
  refine ⟨?_, ?_, ?_, ?_, ?_, rfl, rfl, rfl⟩
  · intro h; simp [categorize_size, h]
  · intro h1 h2
    simp [categorize_size, if_neg (by omega : ¬ n ≤ 15), if_pos h2]
  · intro h1 h2
    simp [categorize_size, if_neg (by omega : ¬ n ≤ 15),
      if_neg (by omega : ¬ n ≤ 30), if_pos h2]
  · intro h
    simp [categorize_size, if_neg (by omega : ¬ n ≤ 15),
      if_neg (by omega : ¬ n ≤ 30), if_neg (by omega : ¬ n ≤ 75)]
  · intro h
    simp only [cutSize, categorize_size, if_neg (by omega : ¬ n = 0)]
    by_cases h15 : n ≤ 15
    · simp [h15]
    · by_cases h30 : n ≤ 30
      · simp [h15, h30]
      · by_cases h75 : n ≤ 75 <;> simp [h15, h30, h75]

/-- C1 witness: the amended boundary behaviour at concrete counts: 16 is
the first "Medium" count, and pd.cut agrees with categorize_size at 16. -/
theorem C1_categorize_upper_inclusive_witness :
    categorize_size 16 = "Medium" ∧ cutSize 16 = some (categorize_size 16) :=
  ⟨(C1_categorize_upper_inclusive 16).2.1 (by decide) (by decide),
   (C1_categorize_upper_inclusive 16).2.2.2.2.1 (by decide)⟩

/-- C2: for every validated threshold list (contiguous, non-overlapping,
starting at 0, final range unbounded — the validation the spec requires at
configuration time), every non-negative count matches exactly one size
range, hence is assigned exactly one category label. -/
theorem C2_classification_total_exclusive (rs : List SizeRange)
    (h : chainFromB 0 rs = true) (n : ℕ) :
    ((rs.filter (fun r => inRange r n)).map (fun r => r.title)).length = 1 := by
  rw [List.length_map, ← List.countP_eq_length_filter]
  exact chainFromB_countP h (Nat.zero_le n)

/-- C2 witness: the Scenario B thresholds 0/15/30/75/unbounded validate,
and the count 15 receives exactly one label. -/
theorem C2_classification_total_exclusive_witness :
    ((([⟨0, some 15, "Small", ""⟩, ⟨15, some 30, "Medium", ""⟩,
        ⟨30, some 75, "Large", ""⟩, ⟨75, none, "Very Large", ""⟩] :
        List SizeRange).filter (fun r => inRange r 15)).map
        (fun r => r.title)).length = 1 :=
  C2_classification_total_exclusive _ (by decide) 15

/-- Embeds the non-missing values of a pandas numeric Series: NaN entries
(missing survey answers) are dropped, as pandas count/mean/std/quantile do
with their default skipna behaviour. -/
def nonMissing : List (Option ℚ) → List ℚ
  | [] => []
  | none :: rest => nonMissing rest
  | some v :: rest => v :: nonMissing rest

/-- Dropping the missing values is filtering the list down to its `some`
entries. -/
theorem nonMissing_eq_filterMap (l : List (Option ℚ)) :
    nonMissing l = l.filterMap id := by
  induction l with
  | nil => rfl
  | cons v rest ih => cases v <;> simp [nonMissing, ih]

/-- Embeds pandas Series.count: the number of non-missing values. -/
def pdCount (vals : List (Option ℚ)) : ℕ :=
  (nonMissing vals).length

/-- Embeds pandas Series.mean (skipna): the mean of the non-missing
values, NaN (none) when there are no non-missing values. -/
def pdMean (vals : List (Option ℚ)) : Option ℚ :=
  let vs := nonMissing vals
  if vs.length = 0 then none else some (vs.sum / (vs.length : ℚ))

/-- Embeds pandas Series.var with the default ddof=1 (the square of
Series.std): the sample variance of the non-missing values, NaN (none)
when fewer than two values are present.  Series.std is its square root,
so std is NaN exactly when this is none. -/
def pdVar (vals : List (Option ℚ)) : Option ℚ :=
  let vs := nonMissing vals
  if vs.length < 2 then none
  else
    let m := vs.sum / (vs.length : ℚ)
    some ((vs.map (fun x => (x - m) ^ 2)).sum / ((vs.length : ℚ) - 1))

/-- Inserts a value into an ascending list, keeping it sorted. -/
def insertAsc (x : ℚ) : List ℚ → List ℚ
  | [] => [x]
  | y :: ys => if x ≤ y then x :: y :: ys else y :: insertAsc x ys

/-- Ascending sort of the values of a Series, as pandas quantile performs
internally before interpolating. -/
def sortAsc (l : List ℚ) : List ℚ :=
  l.foldr insertAsc []

/-- Embeds pandas Series.quantile with the default linear interpolation:
with n sorted non-missing values x_0 .. x_(n-1) and position
pos = q * (n - 1), the result is x_i + (x_(i+1) - x_i) * (pos - i) for
i = floor pos; NaN (none) when the Series has no non-missing value. -/
def quantileQ (vals : List (Option ℚ)) (q : ℚ) : Option ℚ :=
  match sortAsc (nonMissing vals) with
  | [] => none
  | v :: vs =>
    let xs := v :: vs
    let pos : ℚ := q * ((xs.length : ℚ) - 1)
    let i : ℕ := (Int.floor pos).toNat
    let xi := xs.getD i 0
    let xi1 := xs.getD (i + 1) xi
    some (xi + (xi1 - xi) * (pos - (i : ℚ)))

/-- Embeds pandas Series.min (skipna): none on an all-missing Series. -/
def pdMin (vals : List (Option ℚ)) : Option ℚ :=
  (nonMissing vals).min?

/-- Embeds pandas Series.max (skipna): none on an all-missing Series. -/
def pdMax (vals : List (Option ℚ)) : Option ℚ :=
  (nonMissing vals).max?

/-- The per-group statistics computed by the aggregation code
(survey_score_analyzer0104.py calculate_survey_averages and the grouped
agg of survey_statistics_analyzer calculate_comparative_statistics):
count, mean, sample variance (std squared), min, max and the quartiles.
Undefined statistics are none (NaN). -/
structure AggStats where
  count : ℕ
  mean : Option ℚ
  var : Option ℚ
  min : Option ℚ
  max : Option ℚ
  q25 : Option ℚ
  median : Option ℚ
  q75 : Option ℚ
deriving Repr, DecidableEq

/-- Aggregation of one column of values into its descriptive statistics,
exactly as the pandas agg calls in the source compute them. -/
def aggStatsOf (vals : List (Option ℚ)) : AggStats :=
  { count := pdCount vals
    mean := pdMean vals
    var := pdVar vals
    min := pdMin vals
    max := pdMax vals
    q25 := quantileQ vals (1 / 4)
    median := quantileQ vals (1 / 2)
    q75 := quantileQ vals (3 / 4) }

/-- One evaluation response row after numeric coercion: course identifier,
college and the seven nullable survey-item scores. -/
structure Record where
  course : String
  college : String
  scores : List (Option ℚ)
deriving Repr, DecidableEq

/-- Embeds the SurveyCombined column of
stats/survey_statistics_analyzer copy.py load_data:
self.data[survey_cols].mean(axis=1), the row-wise pandas mean that skips
missing values and is NaN when every item of the row is missing. -/
def combinedScore (scores : List (Option ℚ)) : Option ℚ :=
  pdMean scores

/-- Stated from the spec wording for comparison: the combined score is
the arithmetic mean of the declared survey items that are non-missing
for the record, undefined when every item is missing. -/
def specCombinedScore (scores : List (Option ℚ)) : Option ℚ :=
  let present := scores.filterMap id
  if present.isEmpty then none else some (present.sum / (present.length : ℚ))

/-- The rows of one group: pandas groupby membership for group value g. -/
def groupRows (recs : List Record) (key : Record → String) (g : String) :
    List Record :=
  recs.filter (fun r => key r == g)

/-- The distinct group values of a record set, one per groupby result
row. -/
def groupValues (recs : List Record) (key : Record → String) : List String :=
  (recs.map key).dedup

/-- Embeds the grouped aggregation
self.data.groupby(group_col)[survey_col].agg([...]) of
calculate_comparative_statistics: one statistics row per distinct group
value, computed over that group's values of the field. -/
def comparativeStats (recs : List Record) (key : Record → String)
    (field : Record → Option ℚ) : List (String × AggStats) :=
  (groupValues recs key).map
    (fun g => (g, aggStatsOf ((groupRows recs key g).map field)))

/-- The two records of Scenario A: course X, college A, with scores
[4,5,None,4,5,4,5] and [3,3,3,3,3,3,3]. -/
def scenarioA : List Record :=
  [⟨"X", "A", [some 4, some 5, none, some 4, some 5, some 4, some 5]⟩,
   ⟨"X", "A", [some 3, some 3, some 3, some 3, some 3, some 3, some 3]⟩]

/-- The frequency of the most frequent non-missing value, as
value_counts().iloc[0] reads it off the sorted value_counts. -/
def maxFreq (vs : List ℚ) : ℕ :=
  (vs.map (fun x => vs.count x)).foldr Nat.max 0

/-- Embeds Series.mode().iloc[0]: pandas mode drops NaN and returns the
most frequent values sorted ascending, so .iloc[0] is the smallest value
of maximal frequency — and raises IndexError (modelled as none) when the
Series has no non-missing value at all. -/
def modeFirst (vs : List ℚ) : Option ℚ :=
  (vs.filter (fun x => vs.count x == maxFreq vs)).min?

/-- The statistics dict built by calculate_distribution_statistics of
stats/survey_statistics_analyzer copy.py for one column. -/
structure DistStats where
  count : ℕ
  mean : Option ℚ
  var : Option ℚ
  q25 : Option ℚ
  median : Option ℚ
  q75 : Option ℚ
  mode : ℚ
  mode_freq : ℕ
deriving Repr, DecidableEq

/-- Embeds calculate_distribution_statistics for one column: the mode
entry evaluates self.data[col].mode().iloc[0], which raises IndexError
when the column has zero non-missing values (mode() is then an empty
Series); every other statistic degrades to NaN.  The raised exception is
modelled as the error branch. -/
def distributionStats (vals : List (Option ℚ)) : Except String DistStats :=
  match modeFirst (nonMissing vals) with
  | none => Except.error "IndexError: single positional indexer is out-of-bounds"
  | some m =>
    Except.ok
      { count := pdCount vals
        mean := pdMean vals
        var := pdVar vals
        q25 := quantileQ vals (1 / 4)
        median := quantileQ vals (1 / 2)
        q75 := quantileQ vals (3 / 4)
        mode := m
        mode_freq := maxFreq (nonMissing vals) }

/-- An all-missing column has no non-missing values. -/
theorem nonMissing_replicate_none (n : ℕ) :
    nonMissing (List.replicate n (none : Option ℚ)) = [] := by
  induction n with
  | zero => rfl
  | succ k ih => simp [nonMissing, List.replicate_succ] at ih ⊢; exact ih

/-- C3: the combined score of a record is exactly the spec's arithmetic
mean of its non-missing survey items; a record with every item missing
has an undefined combined score (hence drops out of the non-missing
aggregation); and on the two Scenario A records, aggregating the combined
score over college A yields count 2 and mean 15/4 = 3.75. -/
theorem C3_combined_score_mean (scores : List (Option ℚ)) (n : ℕ) :
    combinedScore scores = specCombinedScore scores ∧
      combinedScore (List.replicate n none) = none ∧
      pdCount ((scenarioA.filter (fun r => r.college == "A")).map
        (fun r => combinedScore r.scores)) = 2 ∧
      pdMean ((scenarioA.filter (fun r => r.college == "A")).map
        (fun r => combinedScore r.scores)) = some (15 / 4) := by
  refine ⟨?_, ?_, ?_, ?_⟩
  · simp only [combinedScore, pdMean, specCombinedScore, nonMissing_eq_filterMap]
    rcases h : scores.filterMap id with _ | ⟨v, vs⟩ <;> simp [h]
  · simp [combinedScore, pdMean, nonMissing_replicate_none]
  · norm_num [scenarioA, pdCount, nonMissing, combinedScore, pdMean]
  · norm_num [scenarioA, pdMean, pdCount, nonMissing, combinedScore]

/-- C4: the claim that aggregation never raises on an all-missing group
fails in the code: calculate_distribution_statistics raises IndexError
from mode().iloc[0] on a column with zero non-missing values, even while
its other statistics (count 0, NaN mean and variance) and the grouped
count/mean/std aggregation degrade gracefully, and while the sample
standard deviation of a single-value group is NaN, not an error. -/
theorem C4_all_missing_distribution (n : ℕ) :
    distributionStats [none] =
        Except.error "IndexError: single positional indexer is out-of-bounds" ∧
      pdCount (List.replicate n (none : Option ℚ)) = 0 ∧
      pdMean (List.replicate n (none : Option ℚ)) = none ∧
      pdVar (List.replicate n (none : Option ℚ)) = none ∧
      (aggStatsOf (List.replicate n (none : Option ℚ))).count = 0 ∧
      pdVar [some 3] = none ∧ pdCount [some 3] = 1 := by
  refine ⟨rfl, ?_, ?_, ?_, ?_, rfl, rfl⟩ <;>
    simp [pdCount, pdMean, pdVar, aggStatsOf, nonMissing_replicate_none]

/-- Embeds the kr_to_en dictionary of ColumnMapper.__init__ in
scripts_backend/survey_analysis_app.py. -/
def kr_to_en : List (String × String) :=
  [("년도", "year"), ("학기", "semester"), ("캠퍼스", "campus"),
   ("개설단과대학", "college"), ("교과목명", "course_name"),
   ("설문1", "q1"), ("설문2", "q2"), ("설문3", "q3"), ("설문4", "q4"),
   ("설문5", "q5"), ("설문6", "q6"), ("설문7", "q7")]

/-- Embeds self.en_to_kr = {v: k for k, v in self.kr_to_en.items()}. -/
def en_to_kr : List (String × String) :=
  kr_to_en.map (fun p => (p.2, p.1))

/-- Embeds ColumnMapper.to_english on a single name:
self.kr_to_en.get(korean_cols, korean_cols). -/
def to_english1 (c : String) : String :=
  (kr_to_en.lookup c).getD c

/-- Embeds ColumnMapper.to_korean on a single name:
self.en_to_kr.get(english_cols, english_cols). -/
def to_korean1 (c : String) : String :=
  (en_to_kr.lookup c).getD c

/-- Embeds the batch form of ColumnMapper.to_english. -/
def to_english (cols : List String) : List String :=
  cols.map to_english1

/-- Embeds the batch form of ColumnMapper.to_korean. -/
def to_korean (cols : List String) : List String :=
  cols.map to_korean1

/-- A successful association-list lookup means the key occurs among the
keys of the list. -/
theorem lookup_isSome_mem {l : List (String × String)} {c : String}
    (h : (l.lookup c).isSome = true) : c ∈ l.map Prod.fst := by
  induction l with
  | nil => simp [List.lookup] at h
  | cons p rest ih =>
    obtain ⟨k, b⟩ := p
    rw [List.lookup] at h
    cases hak : c == k with
    | true =>
      have : c = k := by simpa using hak
      simp [this]
    | false =>
      rw [hak] at h
      right
      exact ih h

/-- Round trip on a name the Korean-to-English table maps. -/
theorem to_korean1_to_english1 {c : String}
    (h : (kr_to_en.lookup c).isSome = true) : to_korean1 (to_english1 c) = c := by
  have hc := lookup_isSome_mem h
  simp only [kr_to_en, List.map_cons, List.map_nil, List.mem_cons,
    List.not_mem_nil, or_false] at hc
  rcases hc with rfl | rfl | rfl | rfl | rfl | rfl | rfl | rfl | rfl | rfl | rfl | rfl <;> rfl

/-- Round trip on a name the English-to-Korean table maps. -/
theorem to_english1_to_korean1 {c : String}
    (h : (en_to_kr.lookup c).isSome = true) : to_english1 (to_korean1 c) = c := by
  have hc := lookup_isSome_mem h
  simp only [en_to_kr, kr_to_en, List.map_cons, List.map_nil, List.mem_cons,
    List.not_mem_nil, or_false] at hc
  rcases hc with rfl | rfl | rfl | rfl | rfl | rfl | rfl | rfl | rfl | rfl | rfl | rfl <;> rfl

/-- C6: converting a field list whose names are all in the mapping table
to the other naming scheme and back yields the original list, in both
directions; and a name the table does not map is returned unchanged by
either direction. -/
theorem C6_column_mapper_roundtrip (cols cols2 : List String) (c : String)
    (h1 : ∀ x ∈ cols, (kr_to_en.lookup x).isSome = true)
    (h2 : ∀ x ∈ cols2, (en_to_kr.lookup x).isSome = true)
    (h3 : kr_to_en.lookup c = none) (h4 : en_to_kr.lookup c = none) :
    to_korean (to_english cols) = cols ∧
      to_english (to_korean cols2) = cols2 ∧
      to_english1 c = c ∧ to_korean1 c = c := by
  refine ⟨?_, ?_, ?_, ?_⟩
  · induction cols with
    | nil => rfl
    | cons x xs ih =>
      simp only [to_english, to_korean, List.map_cons, List.cons.injEq] at ih ⊢
      exact ⟨to_korean1_to_english1 (h1 x (by simp)),
        ih fun y hy => h1 y (List.mem_cons_of_mem x hy)⟩
  · induction cols2 with
    | nil => rfl
    | cons x xs ih =>
      simp only [to_english, to_korean, List.map_cons, List.cons.injEq] at ih ⊢
      exact ⟨to_english1_to_korean1 (h2 x (by simp)),
        ih fun y hy => h2 y (List.mem_cons_of_mem x hy)⟩
  · simp [to_english1, h3]
  · simp [to_korean1, h4]

/-- C6 witness: a concrete Korean list, a concrete English list and a
concrete unmapped name. -/
theorem C6_column_mapper_roundtrip_witness :
    to_korean (to_english ["년도", "설문1"]) = ["년도", "설문1"] ∧
      to_english (to_korean ["year", "q3"]) = ["year", "q3"] ∧
      to_english1 "foo" = "foo" ∧ to_korean1 "foo" = "foo" :=
  C6_column_mapper_roundtrip ["년도", "설문1"] ["year", "q3"] "foo"
    (by decide) (by decide) (by decide) (by decide)

/-- Embeds self.survey_cols of MetricsCalculator.__init__ in
test_data/calculate_metrics.py: the names Survey1 through Survey7 built
by its list comprehension over range(1, 8). -/
def metrics_survey_cols : List String :=
  ["Survey1", "Survey2", "Survey3", "Survey4", "Survey5", "Survey6", "Survey7"]

/-- Embeds self.required_columns of MetricsCalculator.__init__: the seven
survey columns plus College, Campus, GroupCode, CourseCode, CourseName. -/
def metrics_required_columns : List String :=
  metrics_survey_cols ++ ["College", "Campus", "GroupCode", "CourseCode", "CourseName"]

/-- Embeds the header validation of MetricsCalculator.__init__:
missing_cols = [col for col in required_columns if col not in df.columns];
raise ValueError naming them when any is missing.  The ValueError carrying
the missing column list is the error branch. -/
def metricsInitCheck (header : List String) : Except (List String) Unit :=
  let missing := metrics_required_columns.filter (fun c => !(header.contains c))
  if missing.isEmpty then Except.ok () else Except.error missing

/-- Embeds required_cols of SurveyDataAnalyzer.load_data in
scripts_backend/survey_analysis_app.py: 교과목명 (course name), 강좌번호
(lecture number) and 개설단과대학 (college). -/
def app_required_cols : List String :=
  ["교과목명", "강좌번호", "개설단과대학"]

/-- The two validation failures SurveyDataAnalyzer.load_data raises as
ValueError: missing required columns (named in the message) or no survey
question column at all. -/
inductive LoadError where
  | missingColumns : List String → LoadError
  | noSurveyQuestions : LoadError
deriving Repr, DecidableEq

/-- Embeds the header validation of SurveyDataAnalyzer.load_data: a
ValueError naming the missing columns is raised when one of the three
required columns is absent; then survey_cols keeps the header fields that
start with 설문, excluding 설문8, and a ValueError reporting that no
survey questions were found is raised when that list is empty. -/
def appHeaderCheck (header : List String) : Except LoadError Unit :=
  let missing := app_required_cols.filter (fun c => !(header.contains c))
  if !missing.isEmpty then Except.error (LoadError.missingColumns missing)
  else
    let survey := header.filter (fun c => c.startsWith "설문" && c != "설문8")
    if survey.isEmpty then Except.error LoadError.noSurveyQuestions
    else Except.ok ()

/-- C5: a header that lacks any required field fails validation with an
error naming the missing fields (every absent required field appears in
the error); in particular a file missing only the College column fails
naming exactly College, and the Korean-header loader missing only
개설단과대학 (college) fails naming exactly 개설단과대학. -/
theorem C5_missing_fields_validation (header : List String) (c : String)
    (hc : c ∈ metrics_required_columns) (hm : header.contains c = false) :
    (∃ missing, metricsInitCheck header = Except.error missing ∧ c ∈ missing) ∧
      metricsInitCheck ["Survey1", "Survey2", "Survey3", "Survey4", "Survey5",
        "Survey6", "Survey7", "Campus", "GroupCode", "CourseCode", "CourseName"] =
        Except.error ["College"] ∧
      appHeaderCheck ["교과목명", "강좌번호", "설문1"] =
        Except.error (LoadError.missingColumns ["개설단과대학"]) := by
  refine ⟨?_, by rfl, by rfl⟩
  have hmem : c ∈ metrics_required_columns.filter (fun x => !(header.contains x)) :=
    List.mem_filter.mpr ⟨hc, by rw [hm]; rfl⟩
  have hne : (metrics_required_columns.filter (fun x => !(header.contains x))).isEmpty = false := by
    rcases he : metrics_required_columns.filter (fun x => !(header.contains x)) with _ | ⟨y, ys⟩
    · rw [he] at hmem; cases hmem
    · rfl
  refine ⟨metrics_required_columns.filter (fun x => !(header.contains x)), ?_, hmem⟩
  simp only [metricsInitCheck, hne]
  rfl

/-- C5 witness: a header containing only College misses Survey1, and
validation fails with an error naming Survey1. -/
theorem C5_missing_fields_validation_witness :
    ∃ missing, metricsInitCheck ["College"] = Except.error missing ∧
      "Survey1" ∈ missing :=
  (C5_missing_fields_validation ["College"] "Survey1" (by decide) (by rfl)).1

/-- One course-level row of the frame SizeRangeAnalyzer.process_data
receives: course identifier (교과목명 after renaming), college
(개설단과대학), response count (응답자 수) and aggregate score (평균 점수). -/
structure CourseRow where
  course : String
  college : String
  respCount : ℕ
  avgScore : ℚ
deriving Repr, DecidableEq

/-- One insertion step of the score sort: an element is placed before the
first element whose score does not exceed it, so elements with equal
scores keep their input order (stable). -/
def insertScoreDesc (x : CourseRow) : List CourseRow → List CourseRow
  | [] => [x]
  | y :: ys =>
    if y.avgScore ≤ x.avgScore then x :: y :: ys else y :: insertScoreDesc x ys

/-- Embeds the sort_values call of SizeRangeAnalyzer.process_data, a
descending sort on the single key 평균 점수 (average score), as a stable
sort — the code passes no secondary sort key. -/
def sortScoreDesc (rows : List CourseRow) : List CourseRow :=
  rows.foldr insertScoreDesc []

/-- Embeds the per-range top-course computation of
SizeRangeAnalyzer.process_data: filter the frame to the range's response
counts, sort by 평균 점수 descending and keep head(10); an empty range
stores no listing (data = None), modelled as the empty list. -/
def topForRange (rows : List CourseRow) (r : SizeRange) : List CourseRow :=
  (sortScoreDesc (rows.filter (fun row => inRange r row.respCount))).take 10

/-- Insertion grows the length by one. -/
theorem length_insertScoreDesc (x : CourseRow) (l : List CourseRow) :
    (insertScoreDesc x l).length = l.length + 1 := by
  induction l with
  | nil => rfl
  | cons y ys ih =>
    rw [insertScoreDesc]
    split
    · rfl
    · simp [ih]

/-- Sorting preserves the length. -/
theorem length_sortScoreDesc (l : List CourseRow) :
    (sortScoreDesc l).length = l.length := by
  induction l with
  | nil => rfl
  | cons y ys ih => simp [sortScoreDesc, List.foldr_cons, length_insertScoreDesc] at ih ⊢; exact ih

/-- Membership in an insertion result. -/
theorem mem_insertScoreDesc {y x : CourseRow} {l : List CourseRow}
    (h : y ∈ insertScoreDesc x l) : y = x ∨ y ∈ l := by
  induction l with
  | nil => rw [insertScoreDesc] at h; exact Or.inl (by simpa using h)
  | cons z zs ih =>
    rw [insertScoreDesc] at h
    split at h
    · rcases List.mem_cons.mp h with h1 | h1
      · exact Or.inl h1
      · exact Or.inr h1
    · rcases List.mem_cons.mp h with h1 | h1
      · exact Or.inr (by simp [h1])
      · rcases ih h1 with h2 | h2
        · exact Or.inl h2
        · exact Or.inr (List.mem_cons_of_mem z h2)

/-- Insertion preserves the descending-score ordering. -/
theorem pairwise_insertScoreDesc {x : CourseRow} {l : List CourseRow}
    (h : l.Pairwise (fun a b => b.avgScore ≤ a.avgScore)) :
    (insertScoreDesc x l).Pairwise (fun a b => b.avgScore ≤ a.avgScore) := by
  induction l with
  | nil => simp [insertScoreDesc]
  | cons y ys ih =>
    rw [insertScoreDesc]
    rw [List.pairwise_cons] at h
    obtain ⟨hy, hys⟩ := h
    split
    · rename_i hxy
      refine List.Pairwise.cons ?_ (List.Pairwise.cons hy hys)
      intro z hz
      rcases List.mem_cons.mp hz with rfl | hz2
      · exact hxy
      · exact le_trans (hy z hz2) hxy
    · rename_i hxy
      refine List.Pairwise.cons ?_ (ih hys)
      intro z hz
      rcases mem_insertScoreDesc hz with rfl | hz2
      · exact le_of_lt (lt_of_not_le hxy)
      · exact hy z hz2

/-- The sorted frame is ordered by descending score. -/
theorem pairwise_sortScoreDesc (l : List CourseRow) :
    (sortScoreDesc l).Pairwise (fun a b => b.avgScore ≤ a.avgScore) := by
  induction l with
  | nil => simp [sortScoreDesc]
  | cons y ys ih => exact pairwise_insertScoreDesc ih

/-- The first course row of the C7 tie: lexically later identifier,
listed first in the input frame. -/
def rowB : CourseRow := ⟨"b", "A", 15, 4⟩

/-- The second course row of the C7 tie: lexically earlier identifier,
listed second in the input frame. -/
def rowA : CourseRow := ⟨"a", "A", 15, 4⟩

/-- C7 counterexample: with two qualifying courses of equal aggregate
score, the listing keeps them in frame order ("b" before "a"), not in
ascending course-identifier order ("a" is lexically smaller than "b",
compared as character lists), because sort_values is given no secondary
key. -/
theorem C7_tie_order_counterexample :
    topForRange [rowB, rowA] ⟨10, some 21, "소규모 강좌 (10-20명)", "#2563eb"⟩ =
        [rowB, rowA] ∧
      rowB.avgScore = rowA.avgScore ∧
      rowA.course.data < rowB.course.data ∧
      ([rowB, rowA] : List CourseRow) ≠ [rowA, rowB] := by
  refine ⟨rfl, rfl, by decide, by decide⟩

/-- C7 (amended): for every size range the listing holds at most 10
course summaries (the head count is fixed at 10 in the code), sorted by
descending aggregate score with ties kept in frame order rather than
re-ordered by course identifier; when fewer courses qualify the listing
holds exactly those, and an empty range yields an empty listing rather
than an error. -/
theorem C7_top_listing_sorted_bounded (rows : List CourseRow) (r : SizeRange) :
    (topForRange rows r).length ≤ 10 ∧
      (topForRange rows r).Pairwise (fun a b => b.avgScore ≤ a.avgScore) ∧
      (topForRange rows r).length =
        Nat.min 10 (rows.filter (fun row => inRange r row.respCount)).length := by
  refine ⟨?_, ?_, ?_⟩
  · rw [topForRange, List.length_take]
    exact Nat.min_le_left ..
  · exact (pairwise_sortScoreDesc _).sublist (List.take_sublist ..)
  · rw [topForRange, List.length_take, length_sortScoreDesc]

/-- The non-missing count of a mapped-out field is the number of rows
whose field is present. -/
theorem pdCount_map {α : Type} (l : List α) (field : α → Option ℚ) :
    pdCount (l.map field) = l.countP (fun r => (field r).isSome) := by
  induction l with
  | nil => rfl
  | cons r rest ih =>
    cases h : field r <;>
      simp [pdCount, nonMissing, List.countP_cons, h] <;>
      simpa [pdCount] using ih

/-- Sums of pointwise sums of naturals split. -/
theorem sum_map_add_nat {α : Type} (f g : α → ℕ) (ks : List α) :
    (ks.map (fun k => f k + g k)).sum = (ks.map f).sum + (ks.map g).sum := by
  induction ks with
  | nil => rfl
  | cons k rest ih => simp [ih]; omega

/-- An indicator keyed on a value outside the key list sums to zero. -/
theorem sum_indicator_not_mem (a : String) (c : Bool) (ks : List String)
    (h : a ∉ ks) :
    (ks.map (fun g => if c && (a == g) then 1 else 0)).sum = 0 := by
  induction ks with
  | nil => rfl
  | cons k rest ih =>
    have hak : (a == k) = false :=
      beq_eq_false_iff_ne.mpr (fun hc => h (hc ▸ List.mem_cons_self a rest))
    rw [List.map_cons, List.sum_cons, ih (fun hc => h (List.mem_cons_of_mem k hc)),
      hak]
    simp

/-- An indicator keyed on a value occurring once in a duplicate-free key
list sums to the indicator itself. -/
theorem sum_indicator_mem (a : String) (c : Bool) (ks : List String)
    (hnd : ks.Nodup) (h : a ∈ ks) :
    (ks.map (fun g => if c && (a == g) then 1 else 0)).sum =
      if c then 1 else 0 := by
  induction ks with
  | nil => cases h
  | cons k rest ih =>
    rw [List.nodup_cons] at hnd
    by_cases hak : a = k
    · subst hak
      have h0 : (rest.map (fun g => if c && (a == g) then 1 else 0)).sum = 0 :=
        sum_indicator_not_mem a c rest hnd.1
      rw [List.map_cons, List.sum_cons, h0, beq_self_eq_true]
      simp
    · have hbeq : (a == k) = false := beq_eq_false_iff_ne.mpr hak
      have hmem : a ∈ rest := by
        rcases List.mem_cons.mp h with h1 | h1
        · exact absurd h1 hak
        · exact h1
      rw [List.map_cons, List.sum_cons, ih hnd.2 hmem, hbeq]
      simp

/-- Partitioning a record list over a duplicate-free key list covering
all its keys splits any Boolean count across the groups. -/
theorem sum_countP_partition {β : Type} (l : List β) (key : β → String)
    (q : β → Bool) :
    ∀ ks : List String, ks.Nodup → (∀ x ∈ l, key x ∈ ks) →
      (ks.map (fun g => l.countP (fun x => q x && (key x == g)))).sum =
        l.countP q := by
  induction l with
  | nil => intro ks _ _; simp
  | cons x xs ih =>
    intro ks hnd hcov
    have hx : key x ∈ ks := hcov x (List.mem_cons_self x xs)
    simp only [List.countP_cons]
    rw [sum_map_add_nat, ih ks hnd (fun y hy => hcov y (List.mem_cons_of_mem x hy)),
      sum_indicator_mem (key x) (q x) ks hnd hx]

/-- C8: for every record set, grouping key and field, the count a group
reports for the field equals exactly the number of rows of that group
with a non-missing value of the field; and the per-group counts summed
over all groups equal the count of the ungrouped aggregation. -/
theorem C8_group_count_exact_and_additive (recs : List Record)
    (key : Record → String) (field : Record → Option ℚ) (g : String) :
    (aggStatsOf ((groupRows recs key g).map field)).count =
        recs.countP (fun r => (field r).isSome && (key r == g)) ∧
      ((groupValues recs key).map
          (fun g2 => (aggStatsOf ((groupRows recs key g2).map field)).count)).sum =
        (aggStatsOf (recs.map field)).count := by
  have hper : ∀ g2 : String,
      (aggStatsOf ((groupRows recs key g2).map field)).count =
        recs.countP (fun r => (field r).isSome && (key r == g2)) := by
    intro g2
    show pdCount ((groupRows recs key g2).map field) = _
    rw [pdCount_map, groupRows, List.countP_filter]
  refine ⟨hper g, ?_⟩
  have hsum := sum_countP_partition recs key (fun r => (field r).isSome)
    (groupValues recs key) (List.nodup_dedup _)
    (fun x hx => List.mem_dedup.mpr (List.mem_map_of_mem key hx))
  calc ((groupValues recs key).map
      (fun g2 => (aggStatsOf ((groupRows recs key g2).map field)).count)).sum
      = ((groupValues recs key).map
          (fun g2 => recs.countP (fun r => (field r).isSome && (key r == g2)))).sum := by
        rw [List.map_congr_left (fun g2 _ => hper g2)]
    _ = recs.countP (fun r => (field r).isSome) := hsum
    _ = (aggStatsOf (recs.map field)).count := by
        show _ = pdCount (recs.map field)
        rw [pdCount_map]

/-- Looking a key up in a keyed map over a duplicate-free key list finds
its entry. -/
theorem lookup_map_keyed {α β : Type} [BEq α] [LawfulBEq α] (f : α → β) :
    ∀ ks : List α, ks.Nodup → ∀ a ∈ ks,
      (ks.map (fun k => (k, f k))).lookup a = some (f a) := by
  intro ks
  induction ks with
  | nil => intro _ a ha; cases ha
  | cons k rest ih =>
    intro hnd a ha
    rw [List.map_cons, List.lookup]
    by_cases hak : a = k
    · subst hak; simp
    · have hbeq : (a == k) = false := beq_eq_false_iff_ne.mpr hak
      rw [hbeq]
      rw [List.nodup_cons] at hnd
      refine ih hnd.2 a ?_
      rcases List.mem_cons.mp ha with h1 | h1
      · exact absurd h1 hak
      · exact h1

/-- C9: aggregating with one grouping key produces, for each group value
present in the records, statistics identical to running the ungrouped
aggregation on exactly that group's rows. -/
theorem C9_grouping_composable (recs : List Record) (key : Record → String)
    (field : Record → Option ℚ) (g : String) (h : g ∈ recs.map key) :
    (comparativeStats recs key field).lookup g =
      some (aggStatsOf ((groupRows recs key g).map field)) := by
  unfold comparativeStats groupValues
  exact lookup_map_keyed _ _ (List.nodup_dedup _) g (List.mem_dedup.mpr h)

/-- C9 witness: on the Scenario A records grouped by college, the entry
for college A is the ungrouped aggregation of its rows. -/
theorem C9_grouping_composable_witness :
    (comparativeStats scenarioA (fun r => r.college)
        (fun r => combinedScore r.scores)).lookup "A" =
      some (aggStatsOf ((groupRows scenarioA (fun r => r.college) "A").map
        (fun r => combinedScore r.scores))) :=
  C9_grouping_composable scenarioA (fun r => r.college)
    (fun r => combinedScore r.scores) "A" (by decide)

/-- One raw CSV row as SurveyDataAnalyzer.load_data sees it after numeric
coercion: 교과목명 (course name), 강좌번호 (lecture number),
개설단과대학 (college) and the seven 설문 answers. -/
structure RawRow where
  course_name : String
  lecture_no : String
  college : String
  answers : List (Option ℚ)
deriving Repr, DecidableEq

/-- Embeds the course_id column SurveyDataAnalyzer.load_data builds by
concatenating 교과목명, a space, an opening parenthesis, 강좌번호 and a
closing parenthesis. -/
def course_id (r : RawRow) : String :=
  r.course_name ++ " (" ++ r.lecture_no ++ ")"

/-- The answer to survey question 1 (설문1), the first survey column. -/
def q1 (r : RawRow) : Option ℚ :=
  r.answers.getD 0 none

/-- The grouping key of the load_data groupby: the pair of course_id
and 개설단과대학 (college). -/
def loadGroupKey (r : RawRow) : String × String :=
  (course_id r, r.college)

/-- Embeds the construction of the 응답자 수 (response count) column in
SurveyDataAnalyzer.load_data: the groupby produces one row per distinct
(course_id, college) pair, and the response count is set to the count
aggregate of 설문1 — the pandas count of non-missing 설문1 answers in
the group, ignoring the other survey questions. -/
def responseCounts (rows : List RawRow) : List ((String × String) × ℕ) :=
  ((rows.map loadGroupKey).dedup).map
    (fun k => (k, pdCount ((rows.filter (fun r => loadGroupKey r == k)).map q1)))

/-- C10: the per-course response count equals exactly the number of that
course's rows with a non-missing answer to survey question 1; a row
answering other questions but leaving 설문1 missing is not counted, as
the concrete two-row course with one 설문1-missing row (count 1) shows. -/
theorem C10_response_count_q1_only (rows : List RawRow) (k : String × String)
    (h : k ∈ rows.map loadGroupKey) :
    (responseCounts rows).lookup k =
        some (rows.countP (fun r => (q1 r).isSome && (loadGroupKey r == k))) ∧
      responseCounts
          [⟨"X", "1", "A", [some 4, some 4, some 4, some 4, some 4, some 4, some 4]⟩,
           ⟨"X", "1", "A", [none, some 5, some 5, some 5, some 5, some 5, some 5]⟩] =
        [(("X (1)", "A"), 1)] := by
  constructor
  · unfold responseCounts
    rw [lookup_map_keyed _ _ (List.nodup_dedup _) k (List.mem_dedup.mpr h)]
    rw [pdCount_map, List.countP_filter]
  · rfl

/-- C10 witness: the first conjunct applied to the concrete two-row
course: its reported response count is the number of rows with a
non-missing 설문1 answer. -/
theorem C10_response_count_q1_only_witness :
    (responseCounts
        [⟨"X", "1", "A", [some 4, some 4, some 4, some 4, some 4, some 4, some 4]⟩,
         ⟨"X", "1", "A", [none, some 5, some 5, some 5, some 5, some 5, some 5]⟩]).lookup
        ("X (1)", "A") =
      some (([⟨"X", "1", "A", [some 4, some 4, some 4, some 4, some 4, some 4, some 4]⟩,
          ⟨"X", "1", "A", [none, some 5, some 5, some 5, some 5, some 5, some 5]⟩] :
          List RawRow).countP
        (fun r => (q1 r).isSome && (loadGroupKey r == ("X (1)", "A")))) :=
  (C10_response_count_q1_only _ ("X (1)", "A") (by decide)).1
